import Mathlib

/-!
# Verification of the reach-tools normalization and schema/upload layer

Shallow embedding of the core logic of the `reach-tools` repository:

* the string-length schema derivation (`dict_lst` / `len_dict` in the
  publishing notebook),
* the field-metadata attachment (`add_fld_meta`) and the explicit
  `OBJECTID` field handling (`oid_fld`, the `fields` list construction),
* the chunked upload batching (`upload_chunks`),
* the record normalizer (`normalize`), whose implementation lives in the
  `reach_tools` package that is not part of the notebook sources; it is
  modelled from the specification, guided by the key path explored in the
  ingestion notebook (`CContainerViewJSON_view` → `CRiverMainGadgetJSON_main`
  → `info`, with fields `id`, `river`, `section`, `description_md`, `geom`).

Arithmetic note: the notebook computes `math.ceil(val * 1.1)` in IEEE-754
binary64 arithmetic. That computation is modelled exactly: `1.1` is the
double `4953959590107546 / 2^52`; the product `float(v) * 1.1` is the exact
integer product rounded to 53 significant bits (round-to-nearest,
ties-to-even); the ceiling of the resulting dyadic rational is then taken
exactly. This differs from the exact `ceil(v * 11 / 10)` at some inputs
(e.g. `v = 50` gives 56, not 55, because `50 * 1.1 = 55.00000000000001`
in binary64).
-/

namespace ReachTools

/-- An attribute value of a normalized record: the schema derivation only
distinguishes strings (`isinstance(v, str)`) from everything else; the
normalizer additionally produces numeric identifiers and explicit nulls. -/
inductive AttrVal where
  | str (s : String)
  | num (n : Int)
  | null
deriving DecidableEq, Repr

/-- `len(v) if isinstance(v, str) else None` from the notebook's `dict_lst`
comprehension. -/
def strLen? : AttrVal → Option Nat
  | .str s => some s.length
  | _ => none

/-- A record's flat attribute mapping, as an association list
(field name, value). -/
abbrev Attrs := List (String × AttrVal)

/-- The notebook's `dict_lst`: for each record, the mapping from field name
to the length of its value when the value is a string, else `None`. -/
def dict_lst (records : List Attrs) : List (List (String × Option Nat)) :=
  records.map (fun attrs => attrs.map (fun kv => (kv.1, strLen? kv.2)))

/-- The non-null observed values of one column `f` across the records: this
is what `pd.DataFrame.from_records(...)[f].max()` ranges over (pandas skips
missing keys and `None` entries alike). -/
def col_vals (recs : List (List (String × Option Nat))) (f : String) : List Nat :=
  recs.filterMap (fun r => (r.lookup f).bind id)

/-- Round `num / den` to the nearest integer, ties to even (IEEE-754
default rounding), for `den > 0`. -/
def round_half_even (num den : Nat) : Nat :=
  let q := num / den
  let r := num % den
  if 2 * r < den then q
  else if den < 2 * r then q + 1
  else if q % 2 = 0 then q else q + 1

/-- Floor base-2 logarithm, computed by structural recursion on a fuel
bound on the bit length (so that concrete instances evaluate in the
kernel). -/
def log2_aux : Nat → Nat → Nat
  | 0, _ => 0
  | fuel + 1, n => if n < 2 then 0 else log2_aux fuel (n / 2) + 1

/-- Floor base-2 logarithm; 128 bits of fuel cover every input the binary64
model below is valid for. -/
def blog2 (n : Nat) : Nat := log2_aux 128 n

/-- The notebook's `math.ceil(val * 1.1)`, modelled exactly over the
IEEE-754 binary64 arithmetic Python/numpy use. `1.1` is the nearest
double, `4953959590107546 / 2^52`. For `v < 2^53` (string lengths are far
below this), `float(v)` is exact, so `float(v) * 1.1` is the exact integer
product `p = v * 4953959590107546` (a multiple of `2^-52`) rounded to 53
significant bits: the representable doubles around `p / 2^52` are the
multiples of `2^(blog2 p - 52 - 52)`, so the rounded significand is
`round_half_even p (2^(blog2 p - 52))` (round-to-nearest, ties-to-even).
`math.ceil` of the resulting dyadic rational `m * s / 2^52` is exact:
`(m * s + 2^52 - 1) / 2^52` in natural division. Note this is not the
exact `ceil(v * 11 / 10)`: at `v = 50` it yields 56, not 55. -/
def ceil_len (v : Nat) : Nat :=
  let p := v * 4953959590107546
  let s := 2 ^ (blog2 p - 52)
  (round_half_even p s * s + 2 ^ 52 - 1) / 2 ^ 52

/-- The notebook's `len_dict`, as a function from field name to derived
length: the per-column maximum of observed string lengths, with columns
having no string value anywhere dropped (`.dropna()`), then the binary64
`math.ceil(val * 1.1)` (`ceil_len`) applied. -/
def len_dict (records : List Attrs) (f : String) : Option Nat :=
  if col_vals (dict_lst records) f = [] then none
  else some (ceil_len ((col_vals (dict_lst records) f).foldr max 0))

/-- Per-record observed string length of field `f` (absent field or
non-string value give `none`). -/
def str_len_of (attrs : Attrs) (f : String) : Option Nat :=
  (attrs.lookup f).bind strLen?

/-- `upload_chunks` from the publishing notebook:
`[feature_lst[idx: idx + chunk_size] for idx in range(0, len(feature_lst), chunk_size)]`.
`range(0, n, k)` has `⌈n / k⌉ = (n + k - 1) / k` elements for `k > 0`. -/
def upload_chunks (l : List α) (k : Nat) : List (List α) :=
  (List.range ((l.length + k - 1) / k)).map (fun idx => (l.drop (idx * k)).take k)

/-! ## Schema field construction (publishing notebook) -/

/-- A schema field description, with the keys carried by the notebook's
field dictionaries (`name`, `type`, `actualType`, `alias`, `sqlType`,
`nullable`, `editable`, and the optional `length` set for string fields);
`type` and `alias` are Lean keywords/commands, so they appear here as
`ftype` and `aliasName`. -/
structure Fld where
  name : String
  ftype : String
  actualType : String
  aliasName : String
  sqlType : String
  nullable : Bool
  editable : Bool
  length : Option Nat
deriving DecidableEq, Repr

/-- `add_fld_meta` from the publishing notebook: look the field name up in
`len_dict` and, when a length was derived, set the field's `length`;
otherwise the field is returned unchanged. The notebook reads `len_dict`
from the enclosing scope; here it is an explicit argument `len_d`. (The
Python signature's `nullable`/`editable` parameters default to `True` and
are never read.) -/
def add_fld_meta (len_d : String → Option Nat) (fld : Fld) : Fld :=
  match len_d fld.name with
  | some fld_len => { fld with length := some fld_len }
  | none => fld

/-- The explicitly configured `OBJECTID` field definition (`oid_fld`). -/
def oid_fld : Fld :=
  { name := "OBJECTID"
    ftype := "esriFieldTypeOID"
    actualType := "int"
    aliasName := "OBJECTID"
    sqlType := "sqlTypeInteger"
    nullable := false
    editable := false
    length := none }

/-- The notebook's `fields` list:
`[add_fld_meta(fld) for fld in fs_prop.fields if fld['type'] != 'esriFieldTypeOID']`
followed by `fields.append(oid_fld)`. The source field list `src` stands
for `fs_prop.fields`, the inferred fields of the feature set. -/
def mk_fields (len_d : String → Option Nat) (src : List Fld) : List Fld :=
  (src.filter (fun fld => fld.ftype != "esriFieldTypeOID")).map (add_fld_meta len_d)
    ++ [oid_fld]

/-! ## Record normalizer -/

/-- The normalization error taxonomy of the spec. -/
inductive NormError where
  | malformedSourceDocument
  | unsupportedSpatialReference
deriving DecidableEq, Repr

/-- Modelled from the spec: the source geometry sub-block of the `info`
block (`json_info.get('geom')` in the ingestion notebook). The `reach_tools`
package that parses it is not among the sources; following the spec it
carries the coordinate paths (sequences of longitude/latitude vertex pairs)
and the spatial reference the source coordinates are declared in.
Coordinates are modelled as exact rationals. -/
structure SrcGeom where
  wkid : Nat
  paths : List (List (ℚ × ℚ))
deriving DecidableEq, Repr

/-- Modelled from the spec: the descriptive `info` block of a raw source
document, with the fields read in the ingestion notebook: `id`, `river`,
`section` (here `sectionName`, as `section` is a Lean keyword),
`description_md`, and the `geom` sub-block. Each is optional, as `dict.get`
yields `None` for an absent key. -/
structure InfoBlock where
  id : Option Int
  river : Option String
  sectionName : Option String
  description_md : Option String
  geom : Option SrcGeom
deriving DecidableEq, Repr

/-- Modelled from the spec: the `CRiverMainGadgetJSON_main` level of a raw
document, holding the optional `info` block. -/
structure MainGadget where
  info : Option InfoBlock
deriving DecidableEq, Repr

/-- Modelled from the spec: the `CContainerViewJSON_view` level of a raw
document, holding the optional main gadget. -/
structure ContainerView where
  main : Option MainGadget
deriving DecidableEq, Repr

/-- Modelled from the spec: a raw per-reach source document; only the fixed
key path down to the `info` block is relevant to normalization. -/
structure RawDoc where
  container : Option ContainerView
deriving DecidableEq, Repr

/-- The polyline geometry of a normalized Reach, tagged with its spatial
reference (always WGS84, wkid 4326). -/
structure ReachGeom where
  wkid : Nat
  paths : List (List (ℚ × ℚ))
deriving DecidableEq, Repr

/-- Modelled from the spec: the normalized Reach record — a flat attribute
mapping plus the polyline geometry. (The `reach_tools.Reach` class itself is
not among the sources.) -/
structure Reach where
  attributes : Attrs
  geometry : ReachGeom
deriving DecidableEq, Repr

/-- `optStr v` is the attribute value for an optional descriptive source
field: the string when present, an explicit null when absent. -/
def optStr : Option String → AttrVal
  | some s => .str s
  | none => .null

/-- Modelled from the spec: `aw_json.get('CContainerViewJSON_view').get('CRiverMainGadgetJSON_main').get('info')`,
the fixed key path from a raw document to its `info` block. -/
def docInfo (doc : RawDoc) : Option InfoBlock :=
  (doc.container.bind (fun c => c.main)).bind (fun m => m.info)

/-- Modelled from the spec: normalization of a located `info` block. The
identifier and the geometry block are required (absence is a
`MalformedSourceDocument`); source geometry must already be in WGS84
(wkid 4326), otherwise `UnsupportedSpatialReference`; the descriptive
fields `river`, `section`, `description_md` are optional and map to an
explicit null when absent; geometry vertices are carried over unchanged
(no reprojection). -/
def normalizeInfo (i : InfoBlock) : Except NormError Reach :=
  match i.id with
  | none => .error .malformedSourceDocument
  | some rid =>
    match i.geom with
    | none => .error .malformedSourceDocument
    | some g =>
      if g.wkid ≠ 4326 then .error .unsupportedSpatialReference
      else .ok
        { attributes :=
            [("reach_id", .num rid),
             ("river", optStr i.river),
             ("section", optStr i.sectionName),
             ("description", optStr i.description_md)]
          geometry := { wkid := 4326, paths := g.paths } }

/-- Modelled from the spec: `normalize(raw_document) -> Reach`, failing with
`MalformedSourceDocument` when the fixed key path to the `info` block is
broken. (The implementation, `Reach.from_aw_json` in the `reach_tools`
package, is not among the sources; this follows the spec's contract and the
ingestion notebook's key path.) -/
def normalize (doc : RawDoc) : Except NormError Reach :=
  match docInfo doc with
  | none => .error .malformedSourceDocument
  | some i => normalizeInfo i

/-! ## Concrete sample data (for evaluating the definitions) -/

/-- A complete raw document (identifier 42, river "Test River", section
"Lower Gorge", two-vertex geometry in WGS84), after the spec's round-trip
example. -/
def sample_doc : RawDoc :=
  ⟨some ⟨some ⟨some
    { id := some 42
      river := some "Test River"
      sectionName := some "Lower Gorge"
      description_md := some "A classic run."
      geom := some { wkid := 4326, paths := [[(-105, 39), (-(1051/10), 391/10)]] } }⟩⟩⟩

/-- The Reach `normalize` produces from `sample_doc`. -/
def sample_reach : Reach :=
  { attributes :=
      [("reach_id", .num 42), ("river", .str "Test River"),
       ("section", .str "Lower Gorge"), ("description", .str "A classic run.")]
    geometry := { wkid := 4326, paths := [[(-105, 39), (-(1051/10), 391/10)]] } }

/-- An `info` block whose optional `description_md` is absent. -/
def sample_info_nodesc : InfoBlock :=
  { id := some 7
    river := some "Test River"
    sectionName := some "Upper"
    description_md := none
    geom := some { wkid := 4326, paths := [[(0, 0), (1, 1)]] } }

/-- The Reach `normalizeInfo` produces from `sample_info_nodesc`: the absent
description maps to an explicit null. -/
def sample_reach_nodesc : Reach :=
  { attributes :=
      [("reach_id", .num 7), ("river", .str "Test River"),
       ("section", .str "Upper"), ("description", .null)]
    geometry := { wkid := 4326, paths := [[(0, 0), (1, 1)]] } }

/-- A plain string field, after the `STRING_FIELD` example of the service
creation notebook. -/
def sample_str_fld : Fld :=
  { name := "STRING_FIELD"
    ftype := "esriFieldTypeString"
    actualType := "nvarchar"
    aliasName := "String Field"
    sqlType := "sqlTypeNVarchar"
    nullable := true
    editable := true
    length := some 25 }

/-- A string-typed source field that happens to be named `OBJECTID`. -/
def objectid_str_fld : Fld :=
  { name := "OBJECTID"
    ftype := "esriFieldTypeString"
    actualType := "nvarchar"
    aliasName := "OBJECTID"
    sqlType := "sqlTypeNVarchar"
    nullable := true
    editable := true
    length := none }

end ReachTools

namespace ReachTools

/-! ## Helper lemmas -/

theorem lookup_map_snd (g : AttrVal → Option Nat) (r : Attrs) (f : String) :
    (r.map (fun kv => (kv.1, g kv.2))).lookup f = (r.lookup f).map g := by
  induction r with
  | nil => rfl
  | cons kv t ih =>
    by_cases h : f = kv.1
    · simp [List.lookup, h]
    · have hb : (f == kv.1) = false := by simp [h]
      simp [List.lookup, hb, ih]

theorem col_vals_dict_lst (records : List Attrs) (f : String) :
    col_vals (dict_lst records) f = records.filterMap (fun r => str_len_of r f) := by
  unfold col_vals dict_lst str_len_of
  rw [List.filterMap_map]
  apply List.filterMap_congr
  intro r _
  simp only [Function.comp, lookup_map_snd]
  cases r.lookup f <;> rfl

theorem le_foldr_max {l : List Nat} {a : Nat} (h : a ∈ l) : a ≤ l.foldr max 0 := by
  induction l with
  | nil => cases h
  | cons b t ih =>
    rcases List.mem_cons.mp h with rfl | h
    · exact Nat.le_max_left _ _
    · exact Nat.le_trans (ih h) (Nat.le_max_right _ _)

theorem foldr_max_le {l : List Nat} {m : Nat} (h : ∀ a ∈ l, a ≤ m) :
    l.foldr max 0 ≤ m := by
  induction l with
  | nil => exact Nat.zero_le m
  | cons b t ih =>
    exact Nat.max_le.mpr ⟨h b (List.mem_cons_self b t), ih (fun a ha => h a (List.mem_cons_of_mem b ha))⟩

theorem foldr_max_eq {l : List Nat} {m : Nat} (hmem : m ∈ l) (hub : ∀ a ∈ l, a ≤ m) :
    l.foldr max 0 = m :=
  Nat.le_antisymm (foldr_max_le hub) (le_foldr_max hmem)

theorem foldr_max_perm {l l' : List Nat} (h : l.Perm l') :
    l.foldr max 0 = l'.foldr max 0 := by
  induction h with
  | nil => rfl
  | cons a _ ih => simp [List.foldr_cons, ih]
  | swap a b t => simp [List.foldr_cons, Nat.max_left_comm]
  | trans _ _ ih₁ ih₂ => exact ih₁.trans ih₂

/-! ## upload_chunks lemmas -/

theorem upload_chunks_nil (k : Nat) : upload_chunks ([] : List α) k = [] := by
  unfold upload_chunks
  cases k with
  | zero => simp
  | succ k => simp [Nat.div_eq_of_lt (Nat.lt_succ_self k)]

theorem upload_chunks_length (l : List α) (k : Nat) :
    (upload_chunks l k).length = (l.length + k - 1) / k := by
  simp [upload_chunks]

theorem chunk_count_pred {n k : Nat} (hk : 0 < k) (hn : 0 < n) :
    (n + k - 1) / k = (n - 1) / k + 1 := by
  have h : n + k - 1 = (n - 1) + k := by omega
  rw [h, Nat.add_div_right _ hk]

theorem chunk_count_drop {n k : Nat} (hk : 0 < k) (hn : 0 < n) :
    ((n - k) + k - 1) / k = (n - 1) / k := by
  rcases le_or_lt k n with h | h
  · congr 1
    omega
  · have h1 : n - k = 0 := by omega
    rw [h1, Nat.div_eq_of_lt (by omega), Nat.div_eq_of_lt (by omega)]

theorem upload_chunks_cons {l : List α} {k : Nat} (hk : 0 < k) (hl : l ≠ []) :
    upload_chunks l k = l.take k :: upload_chunks (l.drop k) k := by
  have hn : 0 < l.length := List.length_pos.mpr hl
  unfold upload_chunks
  rw [List.length_drop, chunk_count_drop hk hn, chunk_count_pred hk hn,
    List.range_succ_eq_map, List.map_cons]
  congr 1
  · simp
  · rw [List.map_map]
    apply List.map_congr_left
    intro i _
    simp only [Function.comp]
    have hm : i.succ * k = k + i * k := by
      rw [Nat.succ_mul]
      ring
    rw [List.drop_drop, hm]

theorem upload_chunks_flatten {k : Nat} (hk : 0 < k) (l : List α) :
    (upload_chunks l k).flatten = l := by
  suffices h : ∀ n (l : List α), l.length ≤ n → (upload_chunks l k).flatten = l from
    h l.length l le_rfl
  intro n
  induction n with
  | zero =>
    intro l hl
    have h0 : l = [] := List.length_eq_zero.mp (Nat.le_zero.mp hl)
    rw [h0, upload_chunks_nil]
    rfl
  | succ n ih =>
    intro l hl
    by_cases hnil : l = []
    · rw [hnil, upload_chunks_nil]
      rfl
    · have hn : 0 < l.length := List.length_pos.mpr hnil
      have hd : (l.drop k).length ≤ n := by
        rw [List.length_drop]
        omega
      rw [upload_chunks_cons hk hnil, List.flatten_cons, ih _ hd,
        List.take_append_drop]

theorem upload_chunks_get (l : List α) (k i : Nat)
    (h : i < (upload_chunks l k).length) :
    (upload_chunks l k).get ⟨i, h⟩ = (l.drop (i * k)).take k := by
  simp [upload_chunks]

theorem upload_chunks_get_length (l : List α) (k i : Nat)
    (h : i < (upload_chunks l k).length) :
    ((upload_chunks l k).get ⟨i, h⟩).length = min k (l.length - i * k) := by
  rw [upload_chunks_get]
  simp

theorem chunk_index_mul_lt {n k i : Nat} (hk : 0 < k) (hi : i < (n + k - 1) / k) :
    i * k < n := by
  have h1 : (i + 1) * k ≤ n + k - 1 := (Nat.le_div_iff_mul_le hk).mp hi
  have h2 : (i + 1) * k = i * k + k := by ring
  omega

theorem chunk_index_full {n k i : Nat} (hk : 0 < k) (hi : i + 1 < (n + k - 1) / k) :
    i * k + k ≤ n := by
  have h1 : (i + 2) * k ≤ n + k - 1 := (Nat.le_div_iff_mul_le hk).mp hi
  have h2 : (i + 2) * k = i * k + k + k := by ring
  omega

theorem lt_div_succ_mul (a b : Nat) (hb : 0 < b) : a < (a / b + 1) * b := by
  have h1 := Nat.div_add_mod a b
  have h2 := Nat.mod_lt a hb
  have h3 : (a / b + 1) * b = b * (a / b) + b := by ring
  omega

theorem ceil_eq_of_mul_bounds {n k q : Nat} (hk : 0 < k)
    (h3 : n ≤ q * k) (h4 : q * k < n + k) :
    ⌈(n : ℚ) / (k : ℚ)⌉ = (q : ℤ) := by
  have hk0 : (0 : ℚ) < (k : ℚ) := by exact_mod_cast hk
  refine Int.ceil_eq_iff.mpr ⟨?_, ?_⟩
  · rw [lt_div_iff₀ hk0]
    have h4q : ((q : ℚ)) * (k : ℚ) < (n : ℚ) + (k : ℚ) := by exact_mod_cast h4
    push_cast
    linarith
  · rw [div_le_iff₀ hk0]
    have h3q : ((n : ℚ)) ≤ (q : ℚ) * (k : ℚ) := by exact_mod_cast h3
    push_cast
    linarith

/-- `(n + k - 1) / k` in natural division is exactly `⌈n / k⌉`. -/
theorem ceil_div_rat {n k : Nat} (hk : 0 < k) :
    ⌈(n : ℚ) / (k : ℚ)⌉ = (((n + k - 1) / k : Nat) : ℤ) := by
  have hq1 : (n + k - 1) / k * k ≤ n + k - 1 := Nat.div_mul_le_self _ _
  have hq2 : n + k - 1 < ((n + k - 1) / k + 1) * k := lt_div_succ_mul _ _ hk
  have hmul : ((n + k - 1) / k + 1) * k = (n + k - 1) / k * k + k := by ring
  have h3 : n ≤ (n + k - 1) / k * k := by omega
  have h4 : (n + k - 1) / k * k < n + k := by omega
  exact ceil_eq_of_mul_bounds hk h3 h4

/-! ## len_dict lemmas -/

theorem len_dict_eq_of_max (records : List Attrs) (f : String) (m : Nat)
    (hmem : ∃ r ∈ records, str_len_of r f = some m)
    (hub : ∀ r ∈ records, ∀ x, str_len_of r f = some x → x ≤ m) :
    len_dict records f = some (ceil_len m) := by
  obtain ⟨r, hr, hrm⟩ := hmem
  have hcol := col_vals_dict_lst records f
  have hmem' : m ∈ col_vals (dict_lst records) f := by
    rw [hcol]
    exact List.mem_filterMap.mpr ⟨r, hr, hrm⟩
  have hub' : ∀ a ∈ col_vals (dict_lst records) f, a ≤ m := by
    rw [hcol]
    intro a ha
    obtain ⟨r', hr', hr'a⟩ := List.mem_filterMap.mp ha
    exact hub r' hr' a hr'a
  have hne : col_vals (dict_lst records) f ≠ [] := by
    intro hc
    rw [hc] at hmem'
    cases hmem'
  unfold len_dict
  rw [if_neg hne, foldr_max_eq hmem' hub']

theorem len_dict_perm {records records' : List Attrs}
    (h : records.Perm records') (f : String) :
    len_dict records f = len_dict records' f := by
  have hp : (col_vals (dict_lst records) f).Perm (col_vals (dict_lst records') f) := by
    rw [col_vals_dict_lst, col_vals_dict_lst]
    exact h.filterMap _
  unfold len_dict
  by_cases h1 : col_vals (dict_lst records) f = []
  · have h2 : col_vals (dict_lst records') f = [] := ((h1 ▸ hp).symm).eq_nil
    rw [if_pos h1, if_pos h2]
  · have h2 : col_vals (dict_lst records') f ≠ [] := by
      intro hc
      exact h1 ((hc ▸ hp).eq_nil)
    rw [if_neg h1, if_neg h2, foldr_max_perm hp]

/-! ## Normalizer lemmas -/

theorem add_fld_meta_ftype (len_d : String → Option Nat) (fld : Fld) :
    (add_fld_meta len_d fld).ftype = fld.ftype := by
  unfold add_fld_meta
  cases len_d fld.name <;> rfl

theorem normalizeInfo_ok_shape {i : InfoBlock} {r : Reach}
    (h : normalizeInfo i = .ok r) :
    ∃ rid g, i.id = some rid ∧ i.geom = some g ∧ g.wkid = 4326 ∧
      r = { attributes :=
              [("reach_id", .num rid), ("river", optStr i.river),
               ("section", optStr i.sectionName),
               ("description", optStr i.description_md)]
            geometry := { wkid := 4326, paths := g.paths } } := by
  rcases hid : i.id with _ | rid
  · simp [normalizeInfo, hid] at h
  · rcases hg : i.geom with _ | g
    · simp [normalizeInfo, hid, hg] at h
    · simp only [normalizeInfo, hid, hg] at h
      by_cases hw : g.wkid = 4326
      · rw [if_neg (fun hc => hc hw)] at h
        simp only [Except.ok.injEq] at h
        exact ⟨rid, g, rfl, rfl, hw, h.symm⟩
      · rw [if_pos hw] at h
        cases h

/-! ## Claim theorems -/

/-- C4: for every finite record sequence and positive `chunk_size`,
`upload_chunks` partitions the sequence into contiguous groups — chunk `i`
is exactly the slice `l[i*k : i*k + k]` — each of exactly `chunk_size`
records except possibly a smaller final group, and concatenating the chunks
in order gives back the original sequence (order preserved across batch
boundaries). The spec's 450-record instance is evaluated in the witness. -/
theorem upload_chunks_partition {α : Type} (l : List α) (k : Nat) (hk : 0 < k) :
    (upload_chunks l k).flatten = l ∧
    ∀ i (h : i < (upload_chunks l k).length),
      (upload_chunks l k).get ⟨i, h⟩ = (l.drop (i * k)).take k ∧
      ((upload_chunks l k).get ⟨i, h⟩).length ≤ k ∧
      (i + 1 < (upload_chunks l k).length →
        ((upload_chunks l k).get ⟨i, h⟩).length = k) := by
  refine ⟨upload_chunks_flatten hk l, ?_⟩
  intro i h
  refine ⟨upload_chunks_get l k i h, ?_, ?_⟩
  · rw [upload_chunks_get_length]
    exact Nat.min_le_left _ _
  · intro hi1
    rw [upload_chunks_get_length]
    rw [upload_chunks_length] at hi1
    have hfull := chunk_index_full hk hi1
    omega

set_option maxRecDepth 40000 in
/-- Witness for C4: 450 records with `chunk_size = 200` yield batches of
sizes 200, 200, 50 whose concatenation is the original list. -/
theorem upload_chunks_partition_witness :
    (upload_chunks (List.replicate 450 (0 : Nat)) 200).flatten
        = List.replicate 450 0 ∧
    (upload_chunks (List.replicate 450 (0 : Nat)) 200).map List.length
        = [200, 200, 50] :=
  ⟨(upload_chunks_partition (List.replicate 450 (0 : Nat)) 200 (by decide)).1,
   by decide⟩

/-- C10: for a record list of length `n` and positive `chunk_size` `k`,
batching yields exactly `⌈n / k⌉` batches (computed as `(n + k - 1) / k`),
none of which is empty; the empty list yields zero batches; and the
concatenation of the batches in order equals the original list. -/
theorem upload_chunks_count {α : Type} (l : List α) (k : Nat) (hk : 0 < k) :
    (upload_chunks l k).length = (l.length + k - 1) / k ∧
    ((upload_chunks l k).length : ℤ) = ⌈(l.length : ℚ) / (k : ℚ)⌉ ∧
    (∀ c ∈ upload_chunks l k, c ≠ []) ∧
    upload_chunks ([] : List α) k = [] ∧
    (upload_chunks l k).flatten = l := by
  refine ⟨upload_chunks_length l k, ?_, ?_, upload_chunks_nil k,
    upload_chunks_flatten hk l⟩
  · rw [upload_chunks_length, ceil_div_rat hk]
  · intro c hc
    obtain ⟨⟨i, hi⟩, rfl⟩ := List.mem_iff_get.mp hc
    rw [← List.length_pos, upload_chunks_get_length]
    have hi' := hi
    rw [upload_chunks_length] at hi'
    have hlt := chunk_index_mul_lt hk hi'
    omega

/-- Witness for C10: 7 records with `chunk_size = 3` give `⌈7/3⌉ = 3`
batches; the empty list gives zero batches; concatenation restores the
input. -/
theorem upload_chunks_count_witness :
    (upload_chunks (List.range 7) 3).length = 3 ∧
    upload_chunks ([] : List Nat) 3 = [] ∧
    (upload_chunks (List.range 7) 3).flatten = List.range 7 := by
  have h := upload_chunks_count (List.range 7) 3 (by decide)
  refine ⟨?_, h.2.2.2.1, h.2.2.2.2⟩
  rw [h.1]
  decide

/-- C1 (amended): for every collection of records and string field `f`, if
`m` is the maximum observed character length of `f` across the collection
(some record observes `m` and no record observes more), the derived schema
length is exactly `ceil_len m` — the binary64 computation
`math.ceil(float(m) * 1.1)` the notebook performs. This coincides with the
exact `ceil(m * 1.1)` at most lengths (8/20 → 22, as in the spec's
example) but not everywhere: float rounding makes `50 * 1.1` come out as
`55.00000000000001`, so `m = 50` derives 56 where exact arithmetic gives
55 (see the counterexample). The original claim's "never less than 1" does
not hold either: when every observed value of the field is the empty
string the derived length is `ceil(0.0) = 0`; no minimum of 1 is enforced
by the code. -/
theorem len_dict_ceil_of_max (records : List Attrs) (f : String) (m : Nat)
    (hmem : ∃ r ∈ records, str_len_of r f = some m)
    (hub : ∀ r ∈ records, (str_len_of r f).getD 0 ≤ m) :
    len_dict records f = some (ceil_len m) := by
  apply len_dict_eq_of_max records f m hmem
  intro r hr x hx
  have hle := hub r hr
  rw [hx] at hle
  exact hle

/-- Witness for C1: two records whose `section` values have lengths 8 and
20 derive length `ceil(20 * 1.1) = 22`. -/
theorem len_dict_ceil_of_max_witness :
    len_dict [[("section", AttrVal.str "01234567")],
              [("section", AttrVal.str "01234567890123456789")]] "section"
      = some 22 := by
  have h := len_dict_ceil_of_max
      [[("section", AttrVal.str "01234567")],
       [("section", AttrVal.str "01234567890123456789")]] "section" 20
      (by decide) (by decide)
  rw [h]
  decide

/-- C1 counterexample, both defects at concrete inputs. (1) A normalized
record whose `section` value is the empty string: the maximum observed
length of `section` is 0 and the derived schema length is 0, which is less
than 1 — refuting the claim's "never less than 1". (2) A record whose
`section` value has length 50: the notebook's binary64 computation derives
56, while the claim's `ceil(50 * 1.1)` is `ceil(55) = 55` — refuting
"equals ceil(max_observed_character_length * 1.1)" read as exact
arithmetic. -/
theorem len_dict_min_counterexample :
    (normalize ⟨some ⟨some ⟨some
        { id := some 42, river := some "Test River", sectionName := some "",
          description_md := none,
          geom := some { wkid := 4326, paths := [[(0, 0), (1, 1)]] } }⟩⟩⟩
      = .ok { attributes :=
                [("reach_id", .num 42), ("river", .str "Test River"),
                 ("section", .str ""), ("description", .null)]
              geometry := { wkid := 4326, paths := [[(0, 0), (1, 1)]] } } ∧
     len_dict [[("reach_id", AttrVal.num 42), ("river", AttrVal.str "Test River"),
                ("section", AttrVal.str ""), ("description", AttrVal.null)]] "section"
       = some 0) ∧
    (len_dict [[("section",
        AttrVal.str "01234567890123456789012345678901234567890123456789")]]
        "section"
      = some 56 ∧
     (11 * 50 + 9) / 10 = 55) :=
  ⟨⟨rfl, by decide⟩, by decide, by decide⟩

/-- C8: the derived string-length table is invariant under permutation of
the record collection — for permuted collections, every field derives the
same length. -/
theorem len_dict_perm_invariant {records records' : List Attrs}
    (h : records.Perm records') (f : String) :
    len_dict records f = len_dict records' f :=
  len_dict_perm h f

/-- Witness for C8: swapping two records leaves the derived length of
`section` unchanged. -/
theorem len_dict_perm_invariant_witness :
    len_dict [[("section", AttrVal.str "ab")],
              [("section", AttrVal.str "abcd")]] "section"
      = len_dict [[("section", AttrVal.str "abcd")],
                  [("section", AttrVal.str "ab")]] "section" :=
  len_dict_perm_invariant (List.Perm.swap _ _ _) "section"

/-- C9: `add_fld_meta` changes at most the `length` key of a field
description — `name`, `type`, `actualType`, `alias`, `sqlType`, `nullable`
and `editable` are always preserved; a field whose name has no derived
length is returned entirely unchanged; a field with a derived length only
has its `length` set to it. -/
theorem add_fld_meta_frame (len_d : String → Option Nat) (fld : Fld) :
    (add_fld_meta len_d fld).name = fld.name ∧
    (add_fld_meta len_d fld).ftype = fld.ftype ∧
    (add_fld_meta len_d fld).actualType = fld.actualType ∧
    (add_fld_meta len_d fld).aliasName = fld.aliasName ∧
    (add_fld_meta len_d fld).sqlType = fld.sqlType ∧
    (add_fld_meta len_d fld).nullable = fld.nullable ∧
    (add_fld_meta len_d fld).editable = fld.editable ∧
    (len_d fld.name = none → add_fld_meta len_d fld = fld) ∧
    (∀ n, len_d fld.name = some n →
      add_fld_meta len_d fld = { fld with length := some n }) := by
  rcases h : len_d fld.name with _ | n <;> simp [add_fld_meta, h]

/-- Witness for C9: with no derived length for its name, a field passes
through `add_fld_meta` unchanged. -/
theorem add_fld_meta_frame_witness :
    add_fld_meta (fun _ => none) sample_str_fld = sample_str_fld :=
  (add_fld_meta_frame (fun _ => none) sample_str_fld).2.2.2.2.2.2.2.1 rfl

/-- C3 counterexample: a source field list containing a string-typed field
named `OBJECTID`. The filter removes only fields of type
`esriFieldTypeOID`, so the string field survives and the explicit
`OBJECTID` definition is appended as well: the resulting field list
contains two fields named `OBJECTID`, refuting the claim's "contains
OBJECTID exactly once regardless of whether the source data defines a
field of that name". -/
theorem mk_fields_objectid_counterexample :
    (mk_fields (fun _ => none) [objectid_str_fld]).countP
        (fun fld => fld.name == "OBJECTID") = 2 := by
  decide

/-- C3 (amended): for every derived length table and source field list, the
constructed field list contains exactly one field of the row-identifier
type `esriFieldTypeOID`, namely the literal `oid_fld` descriptor — named
`OBJECTID`, non-nullable and non-editable — appended as the last entry,
regardless of source content; every non-OID-typed source field (in
particular the source's reach identifier attribute) is retained alongside.
Uniqueness is by field type, not by field name: a source field named
`OBJECTID` but of a different type is kept in addition. -/
theorem mk_fields_oid_spec (len_d : String → Option Nat) (src : List Fld) :
    (mk_fields len_d src).filter (fun fld => fld.ftype == "esriFieldTypeOID")
        = [oid_fld] ∧
    oid_fld.nullable = false ∧
    oid_fld.editable = false ∧
    (mk_fields len_d src).getLast? = some oid_fld ∧
    (∀ fld ∈ src, fld.ftype ≠ "esriFieldTypeOID" →
      add_fld_meta len_d fld ∈ mk_fields len_d src) := by
  refine ⟨?_, rfl, rfl, ?_, ?_⟩
  · unfold mk_fields
    rw [List.filter_append]
    have h1 : ((src.filter (fun fld => fld.ftype != "esriFieldTypeOID")).map
          (add_fld_meta len_d)).filter
            (fun fld => fld.ftype == "esriFieldTypeOID") = [] := by
      rw [List.filter_eq_nil_iff]
      intro a ha
      obtain ⟨b, hb, rfl⟩ := List.mem_map.mp ha
      have hb2 := (List.mem_filter.mp hb).2
      rw [add_fld_meta_ftype]
      simpa using hb2
    rw [h1]
    simp [oid_fld]
  · unfold mk_fields
    exact List.getLast?_concat _
  · intro fld hmem hne
    unfold mk_fields
    apply List.mem_append_left
    apply List.mem_map_of_mem
    exact List.mem_filter.mpr ⟨hmem, by simpa using hne⟩

/-- Witness for C3: on a source list holding one plain string field, the
constructed list has exactly the explicit `OBJECTID` descriptor as its
OID-typed content, and the string field is retained. -/
theorem mk_fields_oid_spec_witness :
    (mk_fields (fun _ => none) [sample_str_fld]).filter
        (fun fld => fld.ftype == "esriFieldTypeOID") = [oid_fld] ∧
    add_fld_meta (fun _ => none) sample_str_fld
        ∈ mk_fields (fun _ => none) [sample_str_fld] :=
  ⟨(mk_fields_oid_spec (fun _ => none) [sample_str_fld]).1,
   (mk_fields_oid_spec (fun _ => none) [sample_str_fld]).2.2.2.2 sample_str_fld
     (List.mem_singleton.mpr rfl) (by decide)⟩

/-- C2: `normalize` is a pure, deterministic function of its input
document — two results obtained from the same document agree record-for-
record: same attribute mapping and same polyline vertices in the same
order. (Spec-modelled: the embedding is a pure function, as the spec's
determinism contract requires.) -/
theorem normalize_deterministic (doc : RawDoc) (r₁ r₂ : Reach)
    (h₁ : normalize doc = .ok r₁) (h₂ : normalize doc = .ok r₂) :
    r₁ = r₂ ∧ r₁.attributes = r₂.attributes ∧ r₁.geometry = r₂.geometry := by
  have h : (Except.ok r₁ : Except NormError Reach) = Except.ok r₂ :=
    h₁.symm.trans h₂
  simp only [Except.ok.injEq] at h
  exact ⟨h, by rw [h], by rw [h]⟩

/-- Witness for C2: evaluated on `sample_doc`, normalization yields
`sample_reach` both times, with identical attributes and geometry. -/
theorem normalize_deterministic_witness :
    sample_reach = sample_reach ∧
    sample_reach.attributes = sample_reach.attributes ∧
    sample_reach.geometry = sample_reach.geometry :=
  normalize_deterministic sample_doc sample_reach sample_reach rfl rfl

/-- C5: every successfully normalized Reach carries exactly the fixed
attribute key list `["reach_id", "river", "section", "description"]`; a
descriptive field absent in the source maps to an explicit null value,
never to a missing key; consequently any two normalized Reaches have
identical attribute key sets. -/
theorem normalize_stable_keys (i : InfoBlock) (r : Reach)
    (h : normalizeInfo i = .ok r) :
    r.attributes.map Prod.fst = ["reach_id", "river", "section", "description"] ∧
    (i.river = none → r.attributes.lookup "river" = some .null) ∧
    (i.sectionName = none → r.attributes.lookup "section" = some .null) ∧
    (i.description_md = none → r.attributes.lookup "description" = some .null) ∧
    (∀ i' r', normalizeInfo i' = .ok r' →
      r'.attributes.map Prod.fst = r.attributes.map Prod.fst) := by
  obtain ⟨rid, g, hid, hg, hw, rfl⟩ := normalizeInfo_ok_shape h
  refine ⟨rfl, ?_, ?_, ?_, ?_⟩
  · intro hr
    simp [hr, optStr, List.lookup]
  · intro hs
    simp [hs, optStr, List.lookup]
  · intro hd
    simp [hd, optStr, List.lookup]
  · intro i' r' h'
    obtain ⟨rid', g', _, _, _, rfl⟩ := normalizeInfo_ok_shape h'
    rfl

/-- Witness for C5: an info block without `description_md` normalizes to
the full fixed key list with an explicit null under `description`. -/
theorem normalize_stable_keys_witness :
    sample_reach_nodesc.attributes.map Prod.fst
        = ["reach_id", "river", "section", "description"] ∧
    sample_reach_nodesc.attributes.lookup "description" = some AttrVal.null :=
  ⟨(normalize_stable_keys sample_info_nodesc sample_reach_nodesc rfl).1,
   (normalize_stable_keys sample_info_nodesc sample_reach_nodesc rfl).2.2.2.1 rfl⟩

/-- C6: a raw document whose required structural keys are absent — the
info-block key path broken, the identifier missing, or the geometry block
missing — normalizes to the `MalformedSourceDocument` error, and no Reach
is produced. (Spec-modelled: the `reach_tools` normalizer is not among the
sources.) -/
theorem normalize_malformed (doc : RawDoc)
    (h : docInfo doc = none ∨
      ∃ i, docInfo doc = some i ∧ (i.id = none ∨ i.geom = none)) :
    normalize doc = .error .malformedSourceDocument ∧
    ∀ r, normalize doc ≠ .ok r := by
  have hmain : normalize doc = .error .malformedSourceDocument := by
    rcases h with h | ⟨i, hi, hcase⟩
    · simp [normalize, h]
    · rcases hcase with hid | hg
      · simp [normalize, normalizeInfo, hi, hid]
      · rcases hid2 : i.id with _ | rid
        · simp [normalize, normalizeInfo, hi, hid2]
        · simp [normalize, normalizeInfo, hi, hid2, hg]
  refine ⟨hmain, fun r hr => ?_⟩
  rw [hmain] at hr
  cases hr

/-- Witness for C6: a document with an info block but no geometry block
raises `MalformedSourceDocument`. -/
theorem normalize_malformed_witness :
    normalize ⟨some ⟨some ⟨some
        { id := some 7, river := some "R", sectionName := some "S",
          description_md := none, geom := none }⟩⟩⟩
      = .error .malformedSourceDocument := by
  have h := normalize_malformed
      ⟨some ⟨some ⟨some
        { id := some 7, river := some "R", sectionName := some "S",
          description_md := none, geom := none }⟩⟩⟩
      (Or.inr ⟨{ id := some 7, river := some "R", sectionName := some "S",
                 description_md := none, geom := none }, rfl, Or.inr rfl⟩)
  exact h.1

/-- C7: when the source geometry is not already in WGS84 (wkid 4326),
normalization fails with `UnsupportedSpatialReference` instead of producing
a Reach tagged 4326; and every successfully normalized Reach came from
source geometry already in 4326, with its vertices carried over unchanged
(no reprojection). (Spec-modelled: the `reach_tools` normalizer is not
among the sources.) -/
theorem normalize_spatial_reference :
    (∀ (doc : RawDoc) (i : InfoBlock) (rid : Int) (g : SrcGeom),
        docInfo doc = some i → i.id = some rid → i.geom = some g →
        g.wkid ≠ 4326 →
        normalize doc = .error .unsupportedSpatialReference) ∧
    (∀ (doc : RawDoc) (r : Reach), normalize doc = .ok r →
        r.geometry.wkid = 4326 ∧
        ∃ i g, docInfo doc = some i ∧ i.geom = some g ∧ g.wkid = 4326 ∧
          r.geometry.paths = g.paths) := by
  constructor
  · intro doc i rid g hdoc hid hg hw
    simp [normalize, normalizeInfo, hdoc, hid, hg, if_pos hw]
  · intro doc r h
    unfold normalize at h
    rcases hdi : docInfo doc with _ | i
    · rw [hdi] at h
      cases h
    · rw [hdi] at h
      obtain ⟨rid, g, hid, hg, hw, rfl⟩ := normalizeInfo_ok_shape h
      exact ⟨rfl, i, g, rfl, hg, hw, rfl⟩

/-- Witness for C7: a document whose geometry is declared in web-mercator
(wkid 3857) fails with `UnsupportedSpatialReference`. -/
theorem normalize_spatial_reference_witness :
    normalize ⟨some ⟨some ⟨some
        { id := some 7, river := none, sectionName := none,
          description_md := none,
          geom := some { wkid := 3857, paths := [[(1, 2)]] } }⟩⟩⟩
      = .error .unsupportedSpatialReference :=
  normalize_spatial_reference.1 _ _ 7 { wkid := 3857, paths := [[(1, 2)]] }
    rfl rfl rfl (by decide)
